import Mathlib

/-!
Verification of the URL-shortener service core (Redirection & Allocation
Engine and Fixed-Window Rate Limiter) against its design document.

The definitions below are a shallow embedding of the Rust source:
  * `src/error/mod.rs`        — `AppError`
  * `src/models/url.rs`       — `Url`, `Url.is_expired`, `Url.short_url`,
                                `CreateUrl`, `CreateUrlRequest`, `UrlResponse`
  * `src/utils/mod.rs`        — `is_valid_short_code`, `is_valid_url`, `truncate`
  * `src/services/url_service.rs` — `create_short_url`, `get_original_url`,
                                `get_url_info`, `delete_url`, `generate_unique_code`
  * `src/api/middleware.rs`   — `RateLimiterState.check`

Timestamps (`chrono::DateTime<Utc>`) are embedded as `Int` (seconds),
compared with `<` exactly as the source compares instants.
`std::time::Instant` values in the rate limiter are embedded as `Nat`;
`Instant::duration_since` saturates at zero, which `Nat` subtraction
matches. The SQL repository is embedded as a list of rows together with
an explicit effect trace: each service call returns its result plus the
list of store mutations / existence checks it performs, and
`applyEffects` replays the mutations against a store.
-/

namespace UrlShortener

/-- Error enum from `src/error/mod.rs` (`AppError`). Variants not reachable
from the embedded operations (`Unauthorized`, `Database`, ...) are omitted;
each carried message is kept as a `String` field. -/
inductive AppError where
  | BadRequest (msg : String)
  | Forbidden (msg : String)
  | NotFound (msg : String)
  | Conflict (msg : String)
  | RateLimited
  | Validation (msg : String)
  | Internal (msg : String)
  deriving DecidableEq

/-- The error *kind* of an `AppError`, forgetting the message payload.
Claims about "the NotFound error kind" compare kinds, as the HTTP layer
does via `status_code()`. -/
inductive ErrorKind where
  | badRequest
  | forbidden
  | notFound
  | conflict
  | rateLimited
  | validation
  | internal
  deriving DecidableEq

def AppError.kind : AppError → ErrorKind
  | .BadRequest _ => .badRequest
  | .Forbidden _ => .forbidden
  | .NotFound _ => .notFound
  | .Conflict _ => .conflict
  | .RateLimited => .rateLimited
  | .Validation _ => .validation
  | .Internal _ => .internal

/-- The kind of the error when a `Result` is an error, `none` on success. -/
def resultKind {α : Type} : Except AppError α → Option ErrorKind
  | .error e => some e.kind
  | .ok _ => none

/-- The `Url` entity from `src/models/url.rs`. -/
structure Url where
  id : String
  short_code : String
  original_url : String
  title : Option String
  clicks : Int
  user_id : Option String
  expires_at : Option Int
  created_at : Int
  updated_at : Int
  deriving DecidableEq

/-- Embedding of `Url::is_expired` from `src/models/url.rs`:
`self.expires_at.map_or(false, |exp| exp < Utc::now())`, with the clock
reading passed explicitly as `now`. -/
def Url.is_expired (u : Url) (now : Int) : Bool :=
  match u.expires_at with
  | none => false
  | some exp => exp < now

/-- Embedding of `str::trim_end_matches('/')`. -/
def trimEndSlashes (s : String) : String :=
  ((s.toList.reverse.dropWhile (fun c => c == '/')).reverse).asString

/-- Embedding of `Url::short_url` from `src/models/url.rs`:
`format!("{}/{}", base_url.trim_end_matches('/'), self.short_code)`. -/
def Url.short_url (u : Url) (base_url : String) : String :=
  trimEndSlashes base_url ++ "/" ++ u.short_code

/-- The `CreateUrl` DTO from `src/models/url.rs`. -/
structure CreateUrl where
  id : String
  short_code : String
  original_url : String
  title : Option String
  user_id : Option String
  expires_at : Option Int
  deriving DecidableEq

/-- The `CreateUrlRequest` DTO from `src/models/url.rs`. -/
structure CreateUrlRequest where
  url : String
  custom_code : Option String
  title : Option String
  expires_in_hours : Option Nat
  deriving DecidableEq

/-- The `UrlResponse` DTO from `src/models/url.rs`. -/
structure UrlResponse where
  id : String
  short_code : String
  short_url : String
  original_url : String
  title : Option String
  clicks : Int
  expires_at : Option Int
  created_at : Int
  deriving DecidableEq

/-- Embedding of `UrlResponse::from_url` from `src/models/url.rs`. -/
def UrlResponse.from_url (u : Url) (base_url : String) : UrlResponse :=
  { id := u.id
    short_code := u.short_code
    short_url := u.short_url base_url
    original_url := u.original_url
    title := u.title
    clicks := u.clicks
    expires_at := u.expires_at
    created_at := u.created_at }

/-! ### The store and its effect trace

The SQL `urls` table (`src/database/repository.rs`) is embedded as a list
of rows. Each service operation returns, beside its result, the trace of
repository calls it made, so that claims such as "never persists a new
record" or "never dispatches a click-count increment" are statements
about the trace. -/

abbrev Store := List Url

/-- Embedding of `UrlRepository::find_by_short_code`: point lookup by code. -/
def find_by_short_code (store : Store) (code : String) : Option Url :=
  store.find? (fun u => u.short_code == code)

/-- Embedding of `UrlRepository::exists`: existence check by code. -/
def repoExists (store : Store) (code : String) : Bool :=
  (find_by_short_code store code).isSome

/-- One repository side effect performed by a service call. -/
inductive RepoEffect where
  | existsCheck (code : String)
  | insert (rec : CreateUrl)
  | incrementClicks (code : String)
  | deleteById (id : String)
  deriving DecidableEq

/-- The row `UrlRepository::create` inserts for a `CreateUrl`:
`created_at = updated_at = now`, clicks start at zero. -/
def urlFromCreate (rec : CreateUrl) (now : Int) : Url :=
  { id := rec.id
    short_code := rec.short_code
    original_url := rec.original_url
    title := rec.title
    clicks := 0
    user_id := rec.user_id
    expires_at := rec.expires_at
    created_at := now
    updated_at := now }

/-- Replay one repository mutation against the store. Existence checks are
reads; `increment_clicks` bumps the counter and touches `updated_at`;
`delete` removes the row by id. -/
def applyEffect (now : Int) (store : Store) : RepoEffect → Store
  | .existsCheck _ => store
  | .insert rec => store ++ [urlFromCreate rec now]
  | .incrementClicks code =>
      store.map (fun u =>
        if u.short_code == code then
          { u with clicks := u.clicks + 1, updated_at := now }
        else u)
  | .deleteById i => store.filter (fun u => u.id ≠ i)

/-- Replay a trace of repository mutations in order. -/
def applyEffects (now : Int) (store : Store) (effs : List RepoEffect) : Store :=
  effs.foldl (applyEffect now) store

/-! ### Service operations (`src/services/url_service.rs`) -/

/-- Embedding of `UrlService::get_original_url`: look the code up (`NotFound` when
absent), fail `NotFound` when the record is expired, otherwise dispatch a
fire-and-forget click increment and return the target URL. -/
def get_original_url (store : Store) (short_code : String) (now : Int) :
    Except AppError String × List RepoEffect :=
  match find_by_short_code store short_code with
  | none => (.error (.NotFound ("URL " ++ short_code ++ " not found")), [])
  | some url =>
      if url.is_expired now then
        (.error (.NotFound "This URL has expired"), [])
      else
        (.ok url.original_url, [.incrementClicks short_code])

/-- Embedding of `UrlService::get_url_info`: look the code up (`NotFound` when absent)
and return the full record as a response. The source performs no expiry
check and no click increment here. -/
def get_url_info (store : Store) (short_code : String) (base_url : String) :
    Except AppError UrlResponse × List RepoEffect :=
  match find_by_short_code store short_code with
  | none => (.error (.NotFound ("URL " ++ short_code ++ " not found")), [])
  | some url => (.ok (UrlResponse.from_url url base_url), [])

/-- Embedding of `UrlService::delete_url`: look the code up (`NotFound` when absent);
when a requester id is supplied and differs from the record owner, fail
`Forbidden`; otherwise delete the row by id. The source runs the ownership
test only inside `if let Some(uid) = user_id`. -/
def delete_url (store : Store) (short_code : String) (user_id : Option String) :
    Except AppError Unit × List RepoEffect :=
  match find_by_short_code store short_code with
  | none => (.error (.NotFound ("URL " ++ short_code ++ " not found")), [])
  | some url =>
      match user_id with
      | some uid =>
          if url.user_id ≠ some uid then
            (.error (.Forbidden "You do not have permission to delete this URL"), [])
          else
            (.ok (), [.deleteById url.id])
      | none => (.ok (), [.deleteById url.id])

/-! ### Validation utilities (`src/utils/mod.rs`) -/

def MAX_URL_LENGTH : Nat := 2048
def MIN_CUSTOM_CODE_LENGTH : Nat := 3
def MAX_CUSTOM_CODE_LENGTH : Nat := 20

/-- Character class of the regex `VALID_SHORT_CODE = ^[a-zA-Z0-9_-]+$`
(`src/utils/mod.rs`). `Char.isAlphanum` is the ASCII test, exactly the
regex ranges `a-zA-Z0-9`. -/
def validShortCodeChar (c : Char) : Bool :=
  c.isAlphanum || c == '_' || c == '-'

/-- Embedding of `VALID_SHORT_CODE.is_match(s)`: the anchored regex matches iff the
string is nonempty and every character is in the class. -/
def validShortCodeMatch (s : String) : Bool :=
  !s.toList.isEmpty && s.toList.all validShortCodeChar

/-- Embedding of `is_valid_short_code` from `src/utils/mod.rs`: `code.len()` (UTF-8
bytes) must lie in `[MIN_CUSTOM_CODE_LENGTH, MAX_CUSTOM_CODE_LENGTH]`,
then the regex must match. -/
def is_valid_short_code (code : String) : Bool :=
  let len := code.utf8ByteSize
  if len < MIN_CUSTOM_CODE_LENGTH || len > MAX_CUSTOM_CODE_LENGTH then
    false
  else
    validShortCodeMatch code

/-- Embedding of `str::starts_with`, on character lists. -/
def listStartsWith : List Char → List Char → Bool
  | [], _ => true
  | _ :: _, [] => false
  | p :: ps, c :: cs => p == c && listStartsWith ps cs

/-- Modelled from the spec: the external `url` crate parse used by
`is_valid_url` and by the `#[validate(url)]` derive is not part of this
repository; per the design document the check is "scheme ∈ \x7bhttp, https\x7d".
A string parses with such a scheme iff it starts with `http://` or
`https://` and has a nonempty remainder. The claims below depend only on
where this check sits in the control flow, never on its exact language. -/
def urlParsesWithHttpScheme (s : String) : Bool :=
  (listStartsWith "http://".toList s.toList && s.utf8ByteSize > 7) ||
  (listStartsWith "https://".toList s.toList && s.utf8ByteSize > 8)

/-- Embedding of `is_valid_url` from `src/utils/mod.rs`: length bound first
(`url_str.len() > MAX_URL_LENGTH` fails), then parse and require an
http/https scheme. -/
def is_valid_url (url_str : String) : Bool :=
  if url_str.utf8ByteSize > MAX_URL_LENGTH then
    false
  else
    urlParsesWithHttpScheme url_str

/-- Embedding of the `#[derive(Validate)]` rules on `CreateUrlRequest` (`src/models/url.rs`):
`url` must be a URL of at most 2048 characters; `custom_code`, when
present, must have 3 to 20 characters and match `VALID_SHORT_CODE`;
`title`, when present, at most 200 characters. The validator crate counts
characters, where `is_valid_short_code` counts bytes. -/
def CreateUrlRequest.validate (r : CreateUrlRequest) : Bool :=
  (urlParsesWithHttpScheme r.url && r.url.length ≤ 2048) &&
  (match r.custom_code with
   | none => true
   | some c => (3 ≤ c.length && c.length ≤ 20) && validShortCodeMatch c) &&
  (match r.title with
   | none => true
   | some t => t.length ≤ 200)

/-! ### Unique-code allocation (`src/services/url_service.rs`)

`generate_unique_code` draws random codes from `utils::generate_short_code`;
the embedding passes the sequence of draws as a function `gen : Nat → String`
(`gen i` is the code produced on the i-th iteration of the `for` loop).
Each iteration performs one `repo.exists` check, recorded in the trace. -/

/-- The `for _ in 0..10` body: try `fuel` more draws starting at draw
index `i`; return the first absent code, or `Internal` when the budget is
exhausted. -/
def genLoop (store : Store) (gen : Nat → String) :
    Nat → Nat → Except AppError String × List RepoEffect
  | _, 0 => (.error (.Internal "Failed to generate unique short code"), [])
  | i, fuel + 1 =>
      let code := gen i
      if !repoExists store code then
        (.ok code, [.existsCheck code])
      else
        let rest := genLoop store gen (i + 1) fuel
        (rest.1, .existsCheck code :: rest.2)

/-- Embedding of `UrlService::generate_unique_code`: at most 10 attempts. -/
def generate_unique_code (store : Store) (gen : Nat → String) :
    Except AppError String × List RepoEffect :=
  genLoop store gen 0 10

/-- Embedding of `UrlService::create_short_url`. Arguments beyond the request mirror
the ambient context of the source: `user_id` the authenticated user,
`gen` the random-code draw sequence, `newId` the nanoid for the new row,
`now` the clock, `base_url` from config. Steps, in source order:
validate the request, check `is_valid_url`, then either validate the
caller-supplied code (`BadRequest` on bad format, `Conflict` when it
exists) or allocate one via `generate_unique_code`; finally build the
record and insert it. -/
def create_short_url (store : Store) (request : CreateUrlRequest)
    (user_id : Option String) (gen : Nat → String) (newId : String)
    (now : Int) (base_url : String) :
    Except AppError UrlResponse × List RepoEffect :=
  if !request.validate then
    (.error (.Validation "validation error"), [])
  else if !is_valid_url request.url then
    (.error (.BadRequest "Invalid URL format"), [])
  else
    let chosen : Except AppError String × List RepoEffect :=
      match request.custom_code with
      | some code =>
          if !is_valid_short_code code then
            (.error (.BadRequest "Invalid custom code format"), [])
          else if repoExists store code then
            (.error (.Conflict ("Short code " ++ code ++ " already exists")), [.existsCheck code])
          else
            (.ok code, [.existsCheck code])
      | none => generate_unique_code store gen
    match chosen with
    | (.error e, effs) => (.error e, effs)
    | (.ok short_code, effs) =>
        let create_url : CreateUrl :=
          { id := newId
            short_code := short_code
            original_url := request.url
            title := request.title
            user_id := user_id
            expires_at := request.expires_in_hours.map (fun h => now + (h : Int) * 3600) }
        let url := urlFromCreate create_url now
        (.ok (UrlResponse.from_url url base_url), effs ++ [.insert create_url])

/-! ### Fixed-window rate limiter (`src/api/middleware.rs`) -/

/-- A `(u32, Instant)` entry of the rate-limiter map: requests counted in
the current window and the instant the window started. -/
structure RateEntry where
  count : Nat
  window_start : Nat
  deriving DecidableEq

/-- The rate-limiter `HashMap<String, (u32, Instant)>`, embedded as an
association list. -/
abbrev RateMap := List (String × RateEntry)

def lookupEntry (m : RateMap) (key : String) : Option RateEntry :=
  (m.find? (fun p => p.1 == key)).map (fun p => p.2)

/-- Write `v` for `key`: replace the first binding in place, append when
absent (the `entry().or_insert` path of `HashMap`). -/
def setEntry (m : RateMap) (key : String) (v : RateEntry) : RateMap :=
  match m with
  | [] => [(key, v)]
  | p :: rest =>
      if p.1 == key then (key, v) :: rest
      else p :: setEntry rest key v

/-- The `RateLimiterState` struct from `src/api/middleware.rs` (the shared map plus
the two construction-time parameters). -/
structure RateLimiterState where
  max_requests : Nat
  window_seconds : Nat
  requests : RateMap
  deriving DecidableEq

/-- Embedding of `RateLimiterState::new`. -/
def RateLimiterState.new (max_requests window_seconds : Nat) : RateLimiterState :=
  { max_requests := max_requests, window_seconds := window_seconds, requests := [] }

/-- Embedding of `RateLimiterState::check`, with the `Instant::now()` reading passed
explicitly. `entry().or_insert((0, now))` materialises a `(0, now)` entry
for an unseen key; `now.duration_since(entry.1) > window` restarts the
window at `(1, now)` and allows; otherwise `count >= max_requests`
rejects with `RateLimited`, and else the count is incremented and the
call allowed. `duration_since` saturates at zero, as `Nat` subtraction
does. -/
def RateLimiterState.check (st : RateLimiterState) (key : String) (now : Nat) :
    Except AppError Unit × RateLimiterState :=
  let entry := (lookupEntry st.requests key).getD ⟨0, now⟩
  if now - entry.window_start > st.window_seconds then
    (.ok (), { st with requests := setEntry st.requests key ⟨1, now⟩ })
  else if entry.count ≥ st.max_requests then
    (.error .RateLimited, { st with requests := setEntry st.requests key entry })
  else
    (.ok (), { st with requests := setEntry st.requests key ⟨entry.count + 1, entry.window_start⟩ })

/-! ### String truncation (`src/utils/mod.rs`) -/

/-- Embedding of `text.char_indices().take_while(|(i, _)| *i < limit)`: keep characters
while their UTF-8 byte offset is below `limit`. -/
def charsBelowByteIndex (cs : List Char) (pos limit : Nat) : List Char :=
  match cs with
  | [] => []
  | c :: rest =>
      if pos < limit then c :: charsBelowByteIndex rest (pos + c.utf8Size) limit
      else []

/-- Embedding of `truncate` from `src/utils/mod.rs`. `max` defaults to 100; a text of
at most `max` bytes is returned whole; otherwise the source computes
`max - 3` on `usize`, which *underflows* when `max < 3` (a panic under
overflow checks) — the embedding returns `none` exactly there — and
otherwise keeps the characters whose byte offset is below `max - 3` and
appends `"..."`. -/
def truncate (text : String) (max_len : Option Nat) : Option String :=
  let max := max_len.getD 100
  if text.utf8ByteSize ≤ max then
    some text
  else if max < 3 then
    none
  else
    some ((charsBelowByteIndex text.toList 0 (max - 3)).asString ++ "...")

/-! ### Sample rows used by concrete witnesses -/

/-- A stored row owned by user `U1` under code `abc`. -/
def sampleOwned : Url :=
  { id := "id1"
    short_code := "abc"
    original_url := "https://example.com"
    title := none
    clicks := 0
    user_id := some "U1"
    expires_at := none
    created_at := 0
    updated_at := 0 }

/-- An anonymous (ownerless) stored row under code `anon`. -/
def sampleAnon : Url :=
  { sampleOwned with id := "id2", short_code := "anon", user_id := none }

/-- An ownerless stored row under code `exp` that expired at time 5. -/
def sampleExpired : Url :=
  { sampleOwned with id := "id3", short_code := "exp", user_id := none, expires_at := some 5 }

/-! ### Claim theorems -/

/-- C8: `is_expired` returns true iff `expires_at` is present and strictly
before `now`; it is false when `expires_at` is absent and false when
`expires_at` equals or is after `now`. (Purity, determinism and totality
hold by construction: `Url.is_expired` is a total Lean function of its two
arguments.) -/
theorem is_expired_iff_present_and_strictly_before (u : Url) (now : Int) :
    (u.is_expired now = true ↔ ∃ t, u.expires_at = some t ∧ t < now)
    ∧ (u.expires_at = none → u.is_expired now = false)
    ∧ (∀ t, u.expires_at = some t → now ≤ t → u.is_expired now = false) := by
  unfold Url.is_expired
  rcases h : u.expires_at with _ | t
  · simp
  · refine ⟨?_, by simp, ?_⟩
    · simp only [decide_eq_true_eq]
      constructor
      · intro ht; exact ⟨t, rfl, ht⟩
      · rintro ⟨t2, ht2, hlt⟩; cases ht2; exact hlt
    · intro t2 ht2 hle
      cases ht2
      simpa using not_lt_of_le hle

/-- Witness for C8: `is_expired` evaluated at `expires_at = now - 1`,
`now + 1`, and absent. -/
theorem is_expired_iff_present_and_strictly_before_witness :
    Url.is_expired { sampleOwned with expires_at := some 4 } 5 = true
    ∧ Url.is_expired { sampleOwned with expires_at := some 6 } 5 = false
    ∧ Url.is_expired sampleOwned 5 = false :=
  ⟨(is_expired_iff_present_and_strictly_before { sampleOwned with expires_at := some 4 } 5).1.mpr
      ⟨4, rfl, by decide⟩,
   (is_expired_iff_present_and_strictly_before { sampleOwned with expires_at := some 6 } 5).2.2
      6 rfl (by decide),
   (is_expired_iff_present_and_strictly_before sampleOwned 5).2.1 rfl⟩

/-- C9 counterexample: the claim restricts accepted candidates to the
alphanumeric alphabet `[A-Za-z0-9]`, but the source regex is
`^[a-zA-Z0-9_-]+$`: the candidate `ab_` contains `_`, which is not
alphanumeric, yet `is_valid_short_code` accepts it, and `create` on an
empty store persists it successfully instead of rejecting it. -/
theorem short_code_underscore_accepted_counterexample :
    is_valid_short_code "ab_" = true
    ∧ Char.isAlphanum '_' = false
    ∧ resultKind (create_short_url []
        { url := "https://example.com", custom_code := some "ab_",
          title := none, expires_in_hours := none }
        none (fun _ => "qqq") "nid" 0 "https://sho.rt").1 = none := by
  decide

/-- C9 (amended): `is_valid_short_code` accepts a candidate iff its byte
length is between 3 and 20 and it is a nonempty string whose characters
all lie in `[A-Za-z0-9_-]` (alphanumerics plus underscore and hyphen);
and a candidate failing this check is rejected by `create` before any
store access: the repository effect trace is empty and no record is
returned. -/
theorem is_valid_short_code_characterization (code : String) :
    (is_valid_short_code code = true ↔
      MIN_CUSTOM_CODE_LENGTH ≤ code.utf8ByteSize
      ∧ code.utf8ByteSize ≤ MAX_CUSTOM_CODE_LENGTH
      ∧ code.toList ≠ []
      ∧ ∀ c ∈ code.toList, (c.isAlphanum || c = '_' || c = '-') = true)
    ∧ (∀ store req uid gen newId now base,
        req.custom_code = some code →
        is_valid_short_code code = false →
        (create_short_url store req uid gen newId now base).2 = []
        ∧ ∀ r, (create_short_url store req uid gen newId now base).1 ≠ .ok r) := by
  constructor
  · unfold is_valid_short_code validShortCodeMatch validShortCodeChar
    simp only [MIN_CUSTOM_CODE_LENGTH, MAX_CUSTOM_CODE_LENGTH]
    by_cases hlo : code.utf8ByteSize < 3
    · simp [hlo]
    · by_cases hhi : code.utf8ByteSize > 20
      · simp [hlo, hhi]
      · simp [hlo, hhi, List.isEmpty_iff]
        constructor
        · rintro ⟨h1, h2⟩
          exact ⟨by omega, by omega, h1, h2⟩
        · rintro ⟨_, _, h3, h4⟩
          exact ⟨h3, h4⟩
  · intro store req uid gen newId now base hcand hfmt
    unfold create_short_url
    by_cases hval : req.validate
    · by_cases hurl : is_valid_url req.url
      · simp [hval, hurl, hcand, hfmt]
      · simp [hval, hurl]
    · simp [hval]

/-- Witness for C9's amended theorem: `abc123` satisfies the
characterization, and `create` with the malformed candidate `a!` touches
the store not at all. -/
theorem is_valid_short_code_characterization_witness :
    is_valid_short_code "abc123" = true
    ∧ (create_short_url [sampleOwned]
        { url := "https://example.com", custom_code := some "a!",
          title := none, expires_in_hours := none }
        none (fun _ => "qqq") "nid" 0 "https://sho.rt").2 = [] := by
  refine ⟨(is_valid_short_code_characterization "abc123").1.mpr (by decide), ?_⟩
  exact ((is_valid_short_code_characterization "a!").2 [sampleOwned]
    { url := "https://example.com", custom_code := some "a!",
      title := none, expires_in_hours := none }
    none (fun _ => "qqq") "nid" 0 "https://sho.rt" rfl (by decide)).1

/-- C10 counterexample: `truncate` is not total — for `max_len` of 0, 1
or 2 and a text longer than the limit, the source computes `max - 3` on
`usize`, which underflows (modelled as `none`); at `max_len = 3` the
subtraction is safe and a string is returned. -/
theorem truncate_underflow_counterexample :
    truncate "hello" (some 0) = none
    ∧ truncate "hello" (some 1) = none
    ∧ truncate "hello" (some 2) = none
    ∧ truncate "hello" (some 3) = some "..." := by
  decide

/-- C10 (amended): `truncate text (some m)` returns a string exactly when
`text` fits in `m` bytes or `m ≥ 3`; with the defaulted limit
(`max_len = none`, limit 100) it always returns a string. For `m < 3` and
a longer text the `max - 3` subtraction underflows. -/
theorem truncate_totality_characterization (text : String) (m : Nat) :
    ((truncate text (some m)).isSome ↔ (text.utf8ByteSize ≤ m ∨ 3 ≤ m))
    ∧ (truncate text none).isSome = true := by
  unfold truncate
  constructor
  · by_cases h1 : text.utf8ByteSize ≤ m
    · simp [h1]
    · by_cases h2 : m < 3
      · simp [h1, h2]
      · simp [h1, h2]
        omega
  · by_cases h1 : text.utf8ByteSize ≤ 100
    · simp [h1]
    · simp [h1]

/-- C1 counterexample: the claim requires `Forbidden` whenever the record
has an owner and the requester does not match it, *including an absent
requester*, and success on ownerless records for *any* requester. The
source skips the ownership test entirely when the requester is absent, so
delete with no requester on a record owned by `U1` succeeds and removes
the row; and a present requester `U2` on an ownerless record is rejected
`Forbidden`. -/
theorem delete_url_authorization_counterexample :
    sampleOwned.user_id = some "U1"
    ∧ (delete_url [sampleOwned] "abc" none).1 = .ok ()
    ∧ applyEffects 0 [sampleOwned] (delete_url [sampleOwned] "abc" none).2 = []
    ∧ sampleAnon.user_id = none
    ∧ resultKind (delete_url [sampleAnon] "anon" (some "U2")).1 = some .forbidden :=
  ⟨rfl, rfl, rfl, rfl, rfl⟩

/-- C1 (amended): the ownership check runs only when a requester is
present. For a stored record: delete with an absent requester passes the
authorization check and deletes the record whatever its owner; delete
with a present requester succeeds and deletes exactly when the record's
`owner_id` equals the requester, and otherwise — including on an
ownerless record — fails `Forbidden` and deletes nothing. -/
theorem delete_url_ownership_check (store : Store) (code : String) (url : Url)
    (hfind : find_by_short_code store code = some url) :
    delete_url store code none = (.ok (), [.deleteById url.id])
    ∧ (∀ u, url.user_id = some u →
        delete_url store code (some u) = (.ok (), [.deleteById url.id]))
    ∧ (∀ u, url.user_id ≠ some u →
        delete_url store code (some u)
          = (.error (.Forbidden "You do not have permission to delete this URL"), [])) := by
  unfold delete_url
  rw [hfind]
  refine ⟨rfl, ?_, ?_⟩
  · intro u hu
    simp [hu]
  · intro u hu
    simp [hu]

/-- Witness for C1's amended theorem at a record owned by `U1`: requester
absent deletes, matching requester deletes, non-matching requester is
forbidden. -/
theorem delete_url_ownership_check_witness :
    delete_url [sampleOwned] "abc" none = (.ok (), [.deleteById "id1"])
    ∧ delete_url [sampleOwned] "abc" (some "U1") = (.ok (), [.deleteById "id1"])
    ∧ delete_url [sampleOwned] "abc" (some "U2")
        = (.error (.Forbidden "You do not have permission to delete this URL"), []) := by
  have h := delete_url_ownership_check [sampleOwned] "abc" sampleOwned rfl
  exact ⟨h.1, h.2.1 "U1" rfl, h.2.2 "U2" (by decide)⟩

/-- C2 counterexample: the claim gives `get_info` the same expiry
semantics as `resolve`, failing `NotFound` on an expired record. The
source performs no expiry check there: on a record expired at time 5,
read at time 10, `get_info` returns the full record successfully. -/
theorem get_url_info_expired_counterexample :
    Url.is_expired sampleExpired 10 = true
    ∧ (get_url_info [sampleExpired] "exp" "https://sho.rt").1
        = .ok (UrlResponse.from_url sampleExpired "https://sho.rt")
    ∧ resultKind (get_url_info [sampleExpired] "exp" "https://sho.rt").1 ≠ some .notFound :=
  ⟨rfl, rfl, by decide⟩

/-- C2 (amended): `get_info` does not share `resolve`'s expiry semantics.
For every code whose record is present in the store — expired or not —
`get_info` returns the full record successfully rather than failing
`NotFound`; and it never dispatches a click-count increment (its
repository effect trace is empty). -/
theorem get_url_info_no_expiry_check_no_click (store : Store) (code base_url : String)
    (url : Url) (hfind : find_by_short_code store code = some url) :
    (get_url_info store code base_url).1 = .ok (UrlResponse.from_url url base_url)
    ∧ resultKind (get_url_info store code base_url).1 ≠ some .notFound
    ∧ (get_url_info store code base_url).2 = [] := by
  unfold get_url_info
  rw [hfind]
  exact ⟨rfl, by simp [resultKind], rfl⟩

/-- Witness for C2's amended theorem at the expired sample record. -/
theorem get_url_info_no_expiry_check_no_click_witness :
    (get_url_info [sampleExpired] "exp" "https://sho.rt").1
      = .ok (UrlResponse.from_url sampleExpired "https://sho.rt")
    ∧ (get_url_info [sampleExpired] "exp" "https://sho.rt").2 = [] := by
  have h := get_url_info_no_expiry_check_no_click [sampleExpired] "exp" "https://sho.rt"
    sampleExpired rfl
  exact ⟨h.1, h.2.2⟩

/-- C3 counterexample: the claim requires delete to fail `NotFound` and
remove nothing when the record exists but is expired. The source checks
no expiry in delete: on a record expired at time 5, deleted at time 10,
the call succeeds and the row is removed from the store. -/
theorem delete_url_expired_counterexample :
    Url.is_expired sampleExpired 10 = true
    ∧ (delete_url [sampleExpired] "exp" none).1 = .ok ()
    ∧ applyEffects 10 [sampleExpired] (delete_url [sampleExpired] "exp" none).2 = [] :=
  ⟨rfl, rfl, rfl⟩

/-- C3 (amended): delete fails with the `NotFound` error kind and removes
nothing from the store exactly when the looked-up record is absent; an
expired record still present in the store is not treated as absent (delete
proceeds on it, as the counterexample shows). -/
theorem delete_url_not_found_when_absent (store : Store) (code : String)
    (uid : Option String) (now : Int)
    (habs : find_by_short_code store code = none) :
    delete_url store code uid = (.error (.NotFound ("URL " ++ code ++ " not found")), [])
    ∧ resultKind (delete_url store code uid).1 = some .notFound
    ∧ applyEffects now store (delete_url store code uid).2 = store := by
  unfold delete_url
  rw [habs]
  exact ⟨rfl, rfl, rfl⟩

/-- Witness for C3's amended theorem at a code absent from the store. -/
theorem delete_url_not_found_when_absent_witness :
    resultKind (delete_url [sampleOwned] "nope" (some "U1")).1 = some .notFound
    ∧ applyEffects 0 [sampleOwned] (delete_url [sampleOwned] "nope" (some "U1")).2
        = [sampleOwned] := by
  have h := delete_url_not_found_when_absent [sampleOwned] "nope" (some "U1") 0 rfl
  exact ⟨h.2.1, h.2.2⟩

/-- C5: a `resolve` call on a code whose record exists but is expired at
call time fails with the same error kind (`NotFound`) as a `resolve` call
on a code absent from the store, and no target URL is returned for the
expired record. -/
theorem resolve_expired_same_kind_as_missing (store : Store) (now : Int)
    (code1 code2 : String) (url : Url)
    (hfind : find_by_short_code store code1 = some url)
    (hexp : url.is_expired now = true)
    (habs : find_by_short_code store code2 = none) :
    resultKind (get_original_url store code1 now).1 = some .notFound
    ∧ resultKind (get_original_url store code2 now).1 = some .notFound
    ∧ ∀ s, (get_original_url store code1 now).1 ≠ .ok s := by
  unfold get_original_url
  rw [hfind, habs]
  simp [hexp, resultKind, AppError.kind]

/-- Witness for C5 at the expired sample record and a missing code. -/
theorem resolve_expired_same_kind_as_missing_witness :
    resultKind (get_original_url [sampleExpired] "exp" 10).1 = some .notFound
    ∧ resultKind (get_original_url [sampleExpired] "nope" 10).1 = some .notFound := by
  have h := resolve_expired_same_kind_as_missing [sampleExpired] 10 "exp" "nope"
    sampleExpired rfl rfl rfl
  exact ⟨h.1, h.2.1⟩

/-- Writing back the value already bound to `key` leaves the map equal. -/
theorem setEntry_self (key : String) (v : RateEntry) :
    ∀ m : RateMap, lookupEntry m key = some v → setEntry m key v = m := by
  intro m
  induction m with
  | nil =>
      intro h
      simp [lookupEntry] at h
  | cons p rest ih =>
      obtain ⟨k0, v0⟩ := p
      intro h
      unfold setEntry
      by_cases hp : k0 = key
      · subst hp
        have hv : v0 = v := by
          simpa [lookupEntry] using h
        simp [hv]
      · have hrest : lookupEntry rest key = some v := by
          simpa [lookupEntry, hp] using h
        simp [hp, ih hrest]

/-- C4 counterexample: the claim asks, for *every* configured
`max_requests`, that the first observation of a key be allowed with the
entry set to `(1, now)`. With `max_requests = 0` (constructible, since the
value is read from the environment as a plain `u32`) the source inserts
`(0, now)`, the window test fails, and `0 >= max_requests` rejects the
very first call with `RateLimited`. -/
theorem rate_limiter_zero_max_counterexample :
    lookupEntry (RateLimiterState.new 0 60).requests "k" = none
    ∧ (RateLimiterState.check (RateLimiterState.new 0 60) "k" 5).1 = .error .RateLimited :=
  ⟨rfl, rfl⟩

/-- C4 (amended): for every configured `max_requests ≥ 1` and every
`window_seconds`, `check(key)` satisfies: on first observation of the
key, or when the elapsed time since that key's `window_start` strictly
exceeds `window_seconds`, the entry is set to `count = 1`,
`window_start = now` and the call is allowed; otherwise if
`count < max_requests` the count is incremented by one and the call is
allowed; otherwise the call is rejected `RateLimited` and the map is left
unchanged. -/
theorem rate_limiter_check_spec (max window : Nat) (m : RateMap) (key : String) (now : Nat)
    (hmax : 1 ≤ max) :
    (lookupEntry m key = none →
      RateLimiterState.check ⟨max, window, m⟩ key now
        = (.ok (), ⟨max, window, setEntry m key ⟨1, now⟩⟩))
    ∧ (∀ c ws, lookupEntry m key = some ⟨c, ws⟩ → window < now - ws →
      RateLimiterState.check ⟨max, window, m⟩ key now
        = (.ok (), ⟨max, window, setEntry m key ⟨1, now⟩⟩))
    ∧ (∀ c ws, lookupEntry m key = some ⟨c, ws⟩ → now - ws ≤ window → c < max →
      RateLimiterState.check ⟨max, window, m⟩ key now
        = (.ok (), ⟨max, window, setEntry m key ⟨c + 1, ws⟩⟩))
    ∧ (∀ c ws, lookupEntry m key = some ⟨c, ws⟩ → now - ws ≤ window → max ≤ c →
      RateLimiterState.check ⟨max, window, m⟩ key now
        = (.error .RateLimited, ⟨max, window, m⟩)) := by
  refine ⟨?_, ?_, ?_, ?_⟩
  · intro h
    unfold RateLimiterState.check
    rw [h]
    simp only [Option.getD_none]
    rw [if_neg (by omega : ¬ now - now > window)]
    rw [if_neg (by omega : ¬ (0 : Nat) ≥ max)]
  · intro c ws h hw
    unfold RateLimiterState.check
    rw [h]
    simp only [Option.getD_some]
    rw [if_pos (by omega : now - ws > window)]
  · intro c ws h hw hc
    unfold RateLimiterState.check
    rw [h]
    simp only [Option.getD_some]
    rw [if_neg (by omega : ¬ now - ws > window)]
    rw [if_neg (by omega : ¬ c ≥ max)]
  · intro c ws h hw hc
    unfold RateLimiterState.check
    rw [h]
    simp only [Option.getD_some]
    rw [if_neg (by omega : ¬ now - ws > window)]
    rw [if_pos (by omega : c ≥ max)]
    rw [setEntry_self key ⟨c, ws⟩ m h]

/-- Witness for C4's amended theorem with `max_requests = 3`,
`window_seconds = 60`: first observation allows with `(1, now)`; an
expired window restarts at `(1, now)`; an in-window call under budget
increments; an in-window call at budget is rejected with the map
unchanged. -/
theorem rate_limiter_check_spec_witness :
    RateLimiterState.check ⟨3, 60, []⟩ "k" 7 = (.ok (), ⟨3, 60, [("k", ⟨1, 7⟩)]⟩)
    ∧ RateLimiterState.check ⟨3, 60, [("k", ⟨3, 10⟩)]⟩ "k" 80
        = (.ok (), ⟨3, 60, [("k", ⟨1, 80⟩)]⟩)
    ∧ RateLimiterState.check ⟨3, 60, [("k", ⟨2, 10⟩)]⟩ "k" 20
        = (.ok (), ⟨3, 60, [("k", ⟨3, 10⟩)]⟩)
    ∧ RateLimiterState.check ⟨3, 60, [("k", ⟨3, 10⟩)]⟩ "k" 20
        = (.error .RateLimited, ⟨3, 60, [("k", ⟨3, 10⟩)]⟩) :=
  ⟨(rate_limiter_check_spec 3 60 [] "k" 7 (by decide)).1 rfl,
   (rate_limiter_check_spec 3 60 [("k", ⟨3, 10⟩)] "k" 80 (by decide)).2.1
     3 10 rfl (by decide),
   (rate_limiter_check_spec 3 60 [("k", ⟨2, 10⟩)] "k" 20 (by decide)).2.2.1
     2 10 rfl (by decide) (by decide),
   (rate_limiter_check_spec 3 60 [("k", ⟨3, 10⟩)] "k" 20 (by decide)).2.2.2
     3 10 rfl (by decide) (by decide)⟩

/-- C6: a `create` call with a caller-supplied candidate code that
already exists in the store (the candidate being well-formed, as every
stored code is) fails with the `Conflict` error kind, never returns a
record (so no silently substituted code), performs no insert, and leaves
the store unchanged. -/
theorem create_conflict_on_existing_candidate (store : Store) (req : CreateUrlRequest)
    (uid : Option String) (gen : Nat → String) (newId : String) (now : Int)
    (base : String) (cand : String)
    (hcand : req.custom_code = some cand)
    (hval : req.validate = true)
    (hurl : is_valid_url req.url = true)
    (hfmt : is_valid_short_code cand = true)
    (hex : repoExists store cand = true) :
    resultKind (create_short_url store req uid gen newId now base).1 = some .conflict
    ∧ (∀ r, (create_short_url store req uid gen newId now base).1 ≠ .ok r)
    ∧ (∀ rec, RepoEffect.insert rec ∉ (create_short_url store req uid gen newId now base).2)
    ∧ applyEffects now store (create_short_url store req uid gen newId now base).2 = store := by
  unfold create_short_url
  simp [hcand, hval, hurl, hfmt, hex, resultKind, AppError.kind, applyEffects, applyEffect]

/-- Witness for C6: creating with candidate `abc` against a store already
holding code `abc` yields `Conflict` and leaves the store as it was. -/
theorem create_conflict_on_existing_candidate_witness :
    resultKind (create_short_url [sampleOwned]
      { url := "https://example.com", custom_code := some "abc",
        title := none, expires_in_hours := none }
      none (fun _ => "qqq") "nid" 0 "https://sho.rt").1 = some .conflict
    ∧ applyEffects 0 [sampleOwned] (create_short_url [sampleOwned]
      { url := "https://example.com", custom_code := some "abc",
        title := none, expires_in_hours := none }
      none (fun _ => "qqq") "nid" 0 "https://sho.rt").2 = [sampleOwned] := by
  have h := create_conflict_on_existing_candidate [sampleOwned]
    { url := "https://example.com", custom_code := some "abc",
      title := none, expires_in_hours := none }
    none (fun _ => "qqq") "nid" 0 "https://sho.rt" "abc"
    rfl (by decide) (by decide) (by decide) (by decide)
  exact ⟨h.1, h.2.2.2⟩

/-- The retry loop of `generate_unique_code`, for any fuel and start
index: the trace stays within the fuel budget; if every draw in the
budget collides the result is the internal exhaustion error; and the
first non-colliding draw is returned. -/
theorem genLoop_spec (store : Store) (gen : Nat → String) :
    ∀ (fuel i : Nat),
      (genLoop store gen i fuel).2.length ≤ fuel
      ∧ ((∀ k, k < fuel → repoExists store (gen (i + k)) = true) →
          (genLoop store gen i fuel).1
            = .error (.Internal "Failed to generate unique short code"))
      ∧ (∀ k, k < fuel → (∀ j, j < k → repoExists store (gen (i + j)) = true) →
          repoExists store (gen (i + k)) = false →
          (genLoop store gen i fuel).1 = .ok (gen (i + k))) := by
  intro fuel
  induction fuel with
  | zero =>
      intro i
      refine ⟨by simp [genLoop], fun _ => rfl, ?_⟩
      intro k hk
      omega
  | succ n ih =>
      intro i
      obtain ⟨ihlen, ihexh, ihok⟩ := ih (i + 1)
      by_cases hex : repoExists store (gen i)
      · refine ⟨?_, ?_, ?_⟩
        · simp only [genLoop, hex, Bool.not_true, if_neg Bool.false_ne_true]
          simpa using Nat.succ_le_succ ihlen
        · intro hall
          simp only [genLoop, hex, Bool.not_true, if_neg Bool.false_ne_true]
          apply ihexh
          intro k hk
          have e : i + 1 + k = i + (k + 1) := by omega
          rw [e]
          exact hall (k + 1) (by omega)
        · intro k hk hprev habs
          cases k with
          | zero =>
              rw [Nat.add_zero] at habs
              rw [hex] at habs
              cases habs
          | succ k2 =>
              simp only [genLoop, hex, Bool.not_true, if_neg Bool.false_ne_true]
              have e : i + (k2 + 1) = i + 1 + k2 := by omega
              rw [e] at habs ⊢
              apply ihok k2 (by omega) ?_ habs
              intro j hj
              have e2 : i + 1 + j = i + (j + 1) := by omega
              rw [e2]
              exact hprev (j + 1) (by omega)
      · have hcond : (!repoExists store (gen i)) = true := by
          simp [hex]
        refine ⟨?_, ?_, ?_⟩
        · simp [genLoop, hcond]
        · intro hall
          have h0 := hall 0 (by omega)
          rw [Nat.add_zero] at h0
          rw [h0] at hex
          exact absurd rfl hex
        · intro k hk hprev habs
          cases k with
          | zero =>
              simp [genLoop, hcond]
          | succ k2 =>
              have h0 := hprev 0 (by omega)
              rw [Nat.add_zero] at h0
              rw [h0] at hex
              exact absurd rfl hex

/-- C7: automatic allocation performs at most 10 generate-and-check
attempts (the existence-check trace has length at most 10); it returns
the first generated code absent from the store; and when all 10 draws
collide it fails with the internal allocation-exhausted error instead of
looping further. -/
theorem generate_unique_code_bounded (store : Store) (gen : Nat → String) :
    (generate_unique_code store gen).2.length ≤ 10
    ∧ ((∀ i, i < 10 → repoExists store (gen i) = true) →
        (generate_unique_code store gen).1
          = .error (.Internal "Failed to generate unique short code"))
    ∧ (∀ i, i < 10 → (∀ j, j < i → repoExists store (gen j) = true) →
        repoExists store (gen i) = false →
        (generate_unique_code store gen).1 = .ok (gen i)) := by
  obtain ⟨hlen, hexh, hok⟩ := genLoop_spec store gen 10 0
  refine ⟨hlen, ?_, ?_⟩
  · intro hall
    apply hexh
    intro k hk
    simpa using hall k hk
  · intro i hi hprev habs
    have h := hok i hi (fun j hj => by simpa using hprev j hj) (by simpa using habs)
    simpa using h

/-- Witness for C7: a draw sequence colliding on all of the first 10
attempts exhausts with the internal error, and a sequence whose fourth
draw is free returns exactly that draw. -/
theorem generate_unique_code_bounded_witness :
    (generate_unique_code [sampleOwned] (fun i => if i < 10 then "abc" else "zzz")).1
      = .error (.Internal "Failed to generate unique short code")
    ∧ (generate_unique_code [sampleOwned] (fun i => if i = 3 then "zzz" else "abc")).1
      = .ok "zzz" := by
  constructor
  · apply (generate_unique_code_bounded [sampleOwned]
      (fun i => if i < 10 then "abc" else "zzz")).2.1
    intro i hi
    simp only [if_pos hi]
    decide
  · have h := (generate_unique_code_bounded [sampleOwned]
      (fun i => if i = 3 then "zzz" else "abc")).2.2 3 (by omega)
      (fun j hj => by
        have hne : j ≠ 3 := by omega
        simp only [hne, if_false]
        decide)
      (by
        simp only [if_pos rfl]
        decide)
    simpa using h

/-- Witness for C10's amended theorem: a 13-byte text truncated at 10
returns a string, and the defaulted limit always returns a string. -/
theorem truncate_totality_characterization_witness :
    (truncate "hello, world!" (some 10)).isSome = true
    ∧ (truncate "hello" none).isSome = true :=
  ⟨(truncate_totality_characterization "hello, world!" 10).1.mpr (Or.inr (by decide)),
   (truncate_totality_characterization "hello" 0).2⟩

end UrlShortener
